import Mathlib

/-!
Shallow embedding of `src/webflow_rss_generator.js` (Webflow Custom RSS Feed
Generator).  JavaScript strings are modelled as `List Char`; the JavaScript
values that can appear in a CMS record (deserialized JSON primitives) are
modelled by `JsValue`, together with JavaScript truthiness and
string-coercion.  Fallible JavaScript code (a `throw` inside the handler
pipeline) is modelled with `Except`.
-/

set_option maxRecDepth 10000

/-- JavaScript strings, modelled as lists of characters. -/
abbrev JStr := List Char

/-- Character list of a Lean string literal (used to transcribe JS string
literals from the source). -/
def lit (s : String) : JStr := s.data

/-- The apostrophe character (written via its code point to keep the file
free of quote-mark literals). -/
def apos : Char := Char.ofNat 39

/-- A deserialized-JSON primitive value as it can appear in a Webflow record
field, plus `undefined` for missing properties. -/
inductive JsValue where
  | str (s : JStr)
  | num (n : Int)
  | bool (b : Bool)
  | null
  | undefined
deriving DecidableEq

/-- JavaScript truthiness of a `JsValue`. -/
def JsValue.truthy : JsValue → Bool
  | .str s => !s.isEmpty
  | .num n => decide (n ≠ 0)
  | .bool b => b
  | .null => false
  | .undefined => false

/-- JavaScript string coercion (`value.toString()` / template-literal
interpolation) of a `JsValue`. -/
def jsToString : JsValue → JStr
  | .str s => s
  | .num n => (toString n).data
  | .bool b => if b then lit "true" else lit "false"
  | .null => lit "null"
  | .undefined => lit "undefined"

/-- JavaScript `a || b`: `a` when truthy, otherwise `b`. -/
def jsOr (a b : JsValue) : JsValue := if a.truthy then a else b

/-- A record field mapping (`post.fieldData`), in object-key insertion
order. -/
abbrev FieldData := List (String × JsValue)

/-- Property read `fieldData[name]` (missing keys give `undefined`). -/
def getField (fd : FieldData) (name : String) : JsValue :=
  match fd.find? (fun p => p.1 == name) with
  | some p => p.2
  | none => .undefined

/-- Optional-chaining read `post.fieldData?.name`. -/
def optField (fd? : Option FieldData) (name : String) : JsValue :=
  match fd? with
  | none => .undefined
  | some fd => getField fd name

/-- JavaScript `s.includes(pat)` (contiguous substring test); `containsSub
pat s` is true when `pat` occurs in `s`. -/
def containsSub (pat : JStr) : JStr → Bool
  | [] => pat.isEmpty
  | c :: rest => pat.isPrefixOf (c :: rest) || containsSub pat rest

/-- `s.includes(pat)` with the receiver first. -/
def jsIncludes (s pat : JStr) : Bool := containsSub pat s

/-- JavaScript `s.replace(/c/g, rep)` for a single-character pattern `c`:
every occurrence of the character is replaced independently. -/
def replaceChar (c : Char) (rep : JStr) : JStr → JStr
  | [] => []
  | x :: xs => (if x = c then rep else [x]) ++ replaceChar c rep xs

/-- JavaScript `s.replace(/\n\n/g, rep)`: left-to-right, non-overlapping
replacement of the two-character pattern newline-newline. -/
def replaceTwoNewlines (rep : JStr) : JStr → JStr
  | '\n' :: '\n' :: rest => rep ++ replaceTwoNewlines rep rest
  | c :: rest => c :: replaceTwoNewlines rep rest
  | [] => []

/-- `escapeXml` (source lines 158-166): falsy input gives the empty string;
otherwise the value is coerced to a string and the five reserved characters
are replaced, in source order: ampersand, less-than, greater-than,
double-quote, apostrophe. -/
def escapeXml (v : JsValue) : JStr :=
  if !v.truthy then [] else
    replaceChar apos (lit "&#39;")
      (replaceChar '"' (lit "&quot;")
        (replaceChar '>' (lit "&gt;")
          (replaceChar '<' (lit "&lt;")
            (replaceChar '&' (lit "&amp;") (jsToString v)))))

/-- `isLikelyContent` (source lines 138-142).  The word count
`str.split(" ").length` equals the number of spaces plus one. -/
def isLikelyContent (s : JStr) : Bool :=
  jsIncludes s (lit "<p>") || jsIncludes s (lit "<h") || jsIncludes s (lit "<div") ||
    (decide (20 < s.count ' ' + 1) && !jsIncludes s (lit "@") && !jsIncludes s (lit "http"))

/-- `processRichTextContent` (source lines 145-155).  A falsy argument gives
the empty string.  A truthy non-string argument has no `.includes` /
`.replace` methods, so the JS function throws a `TypeError`, modelled as
`Except.error`.  A truthy string is returned unchanged when it contains both
angle brackets, otherwise double newlines become paragraph breaks and the
remaining single newlines become line breaks. -/
def processRichTextContent (v : JsValue) : Except Unit JStr :=
  if !v.truthy then .ok [] else
    match v with
    | .str content =>
        .ok (if jsIncludes content (lit "<") && jsIncludes content (lit ">") then content
             else replaceChar '\n' (lit "<br>") (replaceTwoNewlines (lit "</p><p>") content))
    | _ => .error ()

/-- The ordered candidate content field names (source lines 101-108). -/
def contentFields : List String :=
  ["content", "body", "post-body", "main-content", "rich-text", "blog-content"]

/-- The candidate-probing loop of `extractFullContent` (source lines
113-118): the value of the first field name whose value is truthy. -/
def findCandidate (fd : FieldData) : List String → Option JsValue
  | [] => none
  | n :: rest =>
      if (getField fd n).truthy then some (getField fd n) else findCandidate fd rest

/-- One step of the heuristic fallback loop of `extractFullContent` (source
lines 122-126): append a string value longer than 100 characters passing
`isLikelyContent`, followed by two newlines; skip everything else. -/
def fallbackStep (acc : JStr) (p : String × JsValue) : JStr :=
  match p.2 with
  | .str s => if decide (100 < s.length) && isLikelyContent s then acc ++ s ++ lit "\n\n" else acc
  | _ => acc

/-- The heuristic fallback of `extractFullContent` (source lines 121-127):
fold `fallbackStep` over all field values in order. -/
def fallbackConcat (fd : FieldData) : JStr :=
  fd.foldl fallbackStep []

/-- `extractFullContent` (source lines 97-135): falsy `fieldData` gives the
empty string; otherwise the first truthy candidate field wins, else the
heuristic fallback concatenation; a truthy result is passed through
`processRichTextContent` (which can throw on a non-string candidate). -/
def extractFullContent (fd? : Option FieldData) : Except Unit JStr :=
  match fd? with
  | none => .ok []
  | some fd =>
      match findCandidate fd contentFields with
      | some v => processRichTextContent v
      | none =>
          let fb := fallbackConcat fd
          if fb.isEmpty then .ok [] else processRichTextContent (.str fb)

/-- Site-level configuration (source lines 7-9; the `process.env` values
with their defaults). -/
structure Config where
  siteUrl : JStr
  siteName : JStr
  siteDescription : JStr
deriving DecidableEq

/-- The default configuration values from source lines 7-9. -/
def defaultConfig : Config :=
  { siteUrl := lit "https://yoursite.com"
  , siteName := lit "Your Blog"
  , siteDescription := lit "Latest blog posts" }

/-- One Webflow collection item as consumed by `generateRSS`. -/
structure Post where
  id : JStr
  createdOn : Option JStr
  fieldData : Option FieldData
deriving DecidableEq

/-- `postDate` (source line 59): the formatted creation date when
`post.createdOn` is truthy, otherwise the request-time `now` string.  `fmt`
models `(d) => new Date(d).toUTCString()`. -/
def postDateOf (now : JStr) (fmt : JStr → JStr) (post : Post) : JStr :=
  match post.createdOn with
  | some d => if d.isEmpty then now else fmt d
  | none => now

/-- `postUrl` (source line 60). -/
def postUrlOf (cfg : Config) (post : Post) : JStr :=
  cfg.siteUrl ++ lit "/blog/" ++ jsToString (jsOr (optField post.fieldData "slug") (.str post.id))

/-- `title` (source line 63). -/
def titleOf (post : Post) : JStr :=
  escapeXml (jsOr (optField post.fieldData "name")
    (jsOr (optField post.fieldData "title") (.str (lit "Untitled Post"))))

/-- `description` (source line 64). -/
def descriptionOf (post : Post) : JStr :=
  escapeXml (jsOr (optField post.fieldData "summary")
    (jsOr (optField post.fieldData "excerpt") (.str [])))

/-- The author fragment of the item template (source lines 66 and 74): the
`<author>` element when the escaped author is non-empty, else nothing. -/
def authorTagOf (post : Post) : JStr :=
  let author := escapeXml (jsOr (optField post.fieldData "author") (.str []))
  if author.isEmpty then [] else lit "<author>" ++ author ++ lit "</author>"

/-- The per-post item fragment of `generateRSS` (source lines 58-77, the
`posts.map` callback).  Content extraction can throw, which propagates out
of the `map`. -/
def renderItem (cfg : Config) (now : JStr) (fmt : JStr → JStr) (post : Post) :
    Except Unit JStr :=
  match extractFullContent post.fieldData with
  | .error e => .error e
  | .ok content =>
      .ok (lit "\n    <item>"
        ++ lit "\n      <title>" ++ titleOf post
        ++ lit "</title>\n      <link>" ++ postUrlOf cfg post
        ++ lit "</link>\n      <guid isPermaLink=\"true\">" ++ postUrlOf cfg post
        ++ lit "</guid>\n      <pubDate>" ++ postDateOf now fmt post
        ++ lit "</pubDate>\n      " ++ authorTagOf post
        ++ lit "\n      " ++ lit "<description><![CDATA[" ++ descriptionOf post
        ++ lit "]]></description>" ++ lit "\n      "
        ++ lit "<content:encoded><![CDATA[" ++ content
        ++ lit "]]></content:encoded>" ++ lit "\n    </item>")

/-- `posts.map(...)` over `renderItem`, with a thrown error propagating
(JavaScript evaluates the callback left to right). -/
def renderAll (cfg : Config) (now : JStr) (fmt : JStr → JStr) :
    List Post → Except Unit (List JStr)
  | [] => .ok []
  | p :: ps =>
      match renderItem cfg now fmt p with
      | .error e => .error e
      | .ok item =>
          match renderAll cfg now fmt ps with
          | .error e => .error e
          | .ok rest => .ok (item :: rest)

/-- `.join("")`: concatenation of a list of strings in order. -/
def joinStrs : List JStr → JStr
  | [] => []
  | s :: rest => s ++ joinStrs rest

/-- The channel envelope before the items (source lines 80-91). -/
def rssHeader (cfg : Config) (now : JStr) : JStr :=
  lit "<?xml version=\"1.0\" encoding=\"UTF-8\"?>\n<rss version=\"2.0\" \n     xmlns:content=\"http://purl.org/rss/1.0/modules/content/\"\n     xmlns:atom=\"http://www.w3.org/2005/Atom\">\n  <channel>\n    <title>"
  ++ escapeXml (.str cfg.siteName)
  ++ lit "</title>\n    <link>" ++ cfg.siteUrl
  ++ lit "</link>\n    <description>" ++ escapeXml (.str cfg.siteDescription)
  ++ lit "</description>\n    <language>en-us</language>\n    <lastBuildDate>" ++ now
  ++ lit "</lastBuildDate>\n    <atom:link href=\"" ++ cfg.siteUrl
  ++ lit "/api/rss\" rel=\"self\" type=\"application/rss+xml\" />\n    "

/-- The channel envelope after the items (source lines 91-93). -/
def rssFooter : JStr := lit "\n  </channel>\n</rss>"

/-- `generateRSS` (source lines 55-94): render every post in order and wrap
the concatenation in the channel envelope.  `now` models the
`new Date().toUTCString()` value taken once per request. -/
def generateRSS (cfg : Config) (now : JStr) (fmt : JStr → JStr) (posts : List Post) :
    Except Unit JStr :=
  match renderAll cfg now fmt posts with
  | .error e => .error e
  | .ok items => .ok (rssHeader cfg now ++ joinStrs items ++ rssFooter)

/-- The upstream `fetch` response as observed by `fetchWebflowPosts`:
status information plus the result of `response.json()` (`Except.error`
models a JSON parse failure; `none` items models a body without a truthy
`items` field). -/
structure UpstreamResponse where
  ok : Bool
  status : Nat
  statusText : JStr
  body : Except JStr (Option (List Post))

/-- The outcome of the `fetch` call itself: network failure, or a
response. -/
inductive FetchOutcome where
  | networkError
  | response (r : UpstreamResponse)

/-- The distinct failures `fetchWebflowPosts` can propagate. -/
inductive FetchError where
  | apiError (status : Nat) (statusText : JStr)
  | jsonError (message : JStr)
  | networkError
deriving DecidableEq

/-- The message of the `Error` thrown at source line 47, and of the other
failure modes. -/
def FetchError.message : FetchError → JStr
  | .apiError status statusText =>
      lit "Webflow API error: " ++ (toString status).data ++ lit " " ++ statusText
  | .jsonError m => m
  | .networkError => lit "fetch failed"

/-- `fetchWebflowPosts` (source lines 34-52): throw on a non-ok response
carrying the status and status text, propagate a JSON parse failure, and
otherwise return `data.items || []`. -/
def fetchWebflowPosts : FetchOutcome → Except FetchError (List Post)
  | .networkError => .error .networkError
  | .response r =>
      if !r.ok then .error (.apiError r.status r.statusText)
      else
        match r.body with
        | .error m => .error (.jsonError m)
        | .ok items? => .ok (items?.getD [])

/-- The two response body shapes the handler can produce. -/
inductive HandlerBody where
  | rss (xml : JStr)
  | jsonErr (error : JStr)
deriving DecidableEq

/-- The handler response: HTTP status plus body. -/
structure HandlerResponse where
  status : Nat
  body : HandlerBody
deriving DecidableEq

/-- `handler` (source lines 12-31): fetch then render, responding 200 with
the document, and 500 with the fixed JSON error body when any step
throws. -/
def handler (cfg : Config) (now : JStr) (fmt : JStr → JStr) (outcome : FetchOutcome) :
    HandlerResponse :=
  match fetchWebflowPosts outcome with
  | .error _ => { status := 500, body := .jsonErr (lit "Failed to generate RSS feed") }
  | .ok posts =>
      match generateRSS cfg now fmt posts with
      | .error _ => { status := 500, body := .jsonErr (lit "Failed to generate RSS feed") }
      | .ok xml => { status := 200, body := .rss xml }

/-! ### Helper lemmas -/

/-- A character of a single-character replacement comes from the replacement
string or is an unchanged character of the input. -/
theorem mem_replaceChar {x t : Char} {rep : JStr} :
    ∀ {s : JStr}, x ∈ replaceChar t rep s → x ∈ rep ∨ (x ∈ s ∧ x ≠ t) := by
  intro s h
  induction s with
  | nil => simp [replaceChar] at h
  | cons a as ih =>
    simp only [replaceChar, List.mem_append] at h
    rcases h with h | h
    · by_cases hat : a = t
      · rw [if_pos hat] at h
        exact Or.inl h
      · rw [if_neg hat] at h
        simp only [List.mem_singleton] at h
        subst h
        exact Or.inr ⟨List.mem_cons_self _ _, hat⟩
    · rcases ih h with h' | ⟨hmem, hne⟩
      · exact Or.inl h'
      · exact Or.inr ⟨List.mem_cons_of_mem _ hmem, hne⟩

/-- The candidate loop returns the value at the first position whose value
is truthy, every earlier candidate being falsy. -/
theorem findCandidate_first {fd : FieldData} :
    ∀ {names : List String} {v : JsValue}, findCandidate fd names = some v →
      ∃ i, ∃ h : i < names.length,
        getField fd (names.get ⟨i, h⟩) = v ∧ v.truthy = true ∧
          ∀ j (hj : j < i), (getField fd (names.get ⟨j, Nat.lt_trans hj h⟩)).truthy = false := by
  intro names
  induction names with
  | nil => intro v h; simp [findCandidate] at h
  | cons n rest ih =>
    intro v h
    by_cases hc : (getField fd n).truthy = true
    · rw [findCandidate, if_pos hc] at h
      obtain rfl : getField fd n = v := by injection h
      refine ⟨0, Nat.succ_pos _, rfl, hc, ?_⟩
      intro j hj
      omega
    · rw [findCandidate, if_neg hc] at h
      obtain ⟨i, hi, hget, htr, hall⟩ := ih h
      refine ⟨i + 1, Nat.succ_lt_succ hi, hget, htr, ?_⟩
      intro j hj
      match j with
      | 0 => simpa using Bool.eq_false_iff.mpr (fun hh => hc hh)
      | j' + 1 => exact hall j' (Nat.lt_of_succ_lt_succ hj)

/-- A truthy string argument never makes `processRichTextContent` throw. -/
theorem processRichTextContent_str_ok (s : JStr) :
    ∃ out, processRichTextContent (.str s) = .ok out := by
  unfold processRichTextContent
  by_cases h : (JsValue.truthy (.str s)) = true
  · rw [h]; exact ⟨_, rfl⟩
  · rw [Bool.eq_false_iff.mpr (fun hh => h hh)]; exact ⟨_, rfl⟩

/-- The selection corresponding to one `fallbackStep`: the appended chunk,
when the value is selected. -/
def fallbackSelect (p : String × JsValue) : Option JStr :=
  match p.2 with
  | .str s => if decide (100 < s.length) && isLikelyContent s then some (s ++ lit "\n\n") else none
  | _ => none

/-- The fallback fold with an arbitrary accumulator is the accumulator
followed by the concatenation of the selected values. -/
theorem fallbackConcat_foldl (fd : FieldData) :
    ∀ acc : JStr,
      fd.foldl fallbackStep acc = acc ++ joinStrs (fd.filterMap fallbackSelect) := by
  induction fd with
  | nil => intro acc; simp [joinStrs]
  | cons p fd ih =>
    intro acc
    obtain ⟨k, v⟩ := p
    rw [List.foldl_cons, List.filterMap_cons, ih]
    cases v with
    | str s =>
      by_cases hc : (decide (100 < s.length) && isLikelyContent s) = true
      · have h1 : fallbackStep acc (k, .str s) = acc ++ s ++ lit "\n\n" := by
          simp [fallbackStep, hc]
        have h2 : fallbackSelect (k, .str s) = some (s ++ lit "\n\n") := by
          simp [fallbackSelect, hc]
        rw [h1, h2]
        simp [joinStrs, List.append_assoc]
      · have h1 : fallbackStep acc (k, .str s) = acc := by
          simp only [fallbackStep]
          rw [if_neg hc]
        have h2 : fallbackSelect (k, .str s) = none := by
          simp only [fallbackSelect]
          rw [if_neg hc]
        rw [h1, h2]
    | num n => rfl
    | bool b => rfl
    | null => rfl
    | undefined => rfl

/-- Successful rendering of a post list yields one rendered fragment per
post, in order. -/
theorem renderAll_spec {cfg : Config} {now : JStr} {fmt : JStr → JStr} :
    ∀ {posts : List Post} {rendered : List JStr},
      renderAll cfg now fmt posts = .ok rendered →
        rendered.length = posts.length ∧
          ∀ i (h : i < posts.length) (h2 : i < rendered.length),
            renderItem cfg now fmt (posts.get ⟨i, h⟩) = .ok (rendered.get ⟨i, h2⟩) := by
  intro posts
  induction posts with
  | nil =>
    intro rendered h
    obtain rfl : ([] : List JStr) = rendered := by
      simpa [renderAll] using h
    exact ⟨rfl, by intro i h _; exact absurd h (by simp)⟩
  | cons p ps ih =>
    intro rendered h
    rw [renderAll] at h
    cases hi : renderItem cfg now fmt p with
    | error e => rw [hi] at h; exact absurd h (by simp)
    | ok item =>
      rw [hi] at h
      cases hr : renderAll cfg now fmt ps with
      | error e => rw [hr] at h; exact absurd h (by simp)
      | ok rest =>
        rw [hr] at h
        obtain rfl : item :: rest = rendered := by injection h
        obtain ⟨hlen, hidx⟩ := ih hr
        refine ⟨by simpa using hlen, ?_⟩
        intro i hlt hlt2
        match i with
        | 0 => simpa using hi
        | i' + 1 =>
          exact hidx i' (Nat.lt_of_succ_lt_succ hlt) (Nat.lt_of_succ_lt_succ hlt2)

/-! ### Shared witness inputs -/

/-- A 403 upstream response (used to witness the error path). -/
def forbidden403 : UpstreamResponse :=
  { ok := false, status := 403, statusText := lit "Forbidden", body := .ok none }

/-- A 150-character string of 26 space-separated words, with no angle
bracket, no at-sign and no `http` (the heuristic-fallback example). -/
def lorem150 : JStr :=
  lit "lorem lorem lorem lorem lorem lorem lorem lorem lorem lorem lorem lorem lorem lorem lorem lorem lorem lorem lorem lorem lorem lorem lorem lorem lorem "

/-- A record whose only plausible content field is `lorem150`. -/
def loremRecord : FieldData := [("title", .str (lit "A post")), ("note", .str lorem150)]

/-- A post with a summary needing escaping and HTML content (used to witness
the item-rendering claims). -/
def samplePost : Post :=
  { id := lit "1"
  , createdOn := none
  , fieldData := some [("summary", .str (lit "S & s")), ("content", .str (lit "<p>Hi</p>"))] }

/-! ### Claims -/

/-- C1: for every request the handler produces exactly one response: status
200 with the rendered RSS document when the fetch and every later step
succeed, and otherwise status 500 with exactly the JSON error body — in
particular a non-ok upstream response (such as a 403) always yields the 500
response with the fixed body, never the upstream status and never a partial
document. -/
theorem handler_response_dichotomy :
    (∀ (cfg : Config) (now : JStr) (fmt : JStr → JStr) (outcome : FetchOutcome),
        (∃ posts xml, fetchWebflowPosts outcome = .ok posts ∧
            generateRSS cfg now fmt posts = .ok xml ∧
            handler cfg now fmt outcome = ⟨200, .rss xml⟩) ∨
          handler cfg now fmt outcome = ⟨500, .jsonErr (lit "Failed to generate RSS feed")⟩) ∧
    (∀ (cfg : Config) (now : JStr) (fmt : JStr → JStr) (r : UpstreamResponse),
        r.ok = false →
          handler cfg now fmt (.response r) =
            ⟨500, .jsonErr (lit "Failed to generate RSS feed")⟩) := by
  constructor
  · intro cfg now fmt outcome
    cases hf : fetchWebflowPosts outcome with
    | error e => exact Or.inr (by simp [handler, hf])
    | ok posts =>
      cases hg : generateRSS cfg now fmt posts with
      | error e => exact Or.inr (by simp [handler, hf, hg])
      | ok xml => exact Or.inl ⟨posts, xml, rfl, hg, by simp [handler, hf, hg]⟩
  · intro cfg now fmt r hok
    simp [handler, fetchWebflowPosts, hok]

/-- Witness for C1: a 403 upstream response produces the 500 response with
the fixed JSON error body. -/
theorem handler_response_dichotomy_witness :
    handler defaultConfig (lit "NOW") (fun d => d) (.response forbidden403) =
      ⟨500, .jsonErr (lit "Failed to generate RSS feed")⟩ :=
  handler_response_dichotomy.2 defaultConfig (lit "NOW") (fun d => d) forbidden403 rfl

/-- C2: the candidate list is probed in exactly the fixed source order, the
first truthy match becomes the content passed to normalization, and when a
candidate matches the result depends only on that value (the heuristic scan
over the remaining fields is never performed). -/
theorem extract_first_candidate_wins :
    contentFields =
        ["content", "body", "post-body", "main-content", "rich-text", "blog-content"] ∧
    (∀ (fd : FieldData) (v : JsValue), findCandidate fd contentFields = some v →
        extractFullContent (some fd) = processRichTextContent v) ∧
    (∀ (fd : FieldData) (names : List String) (v : JsValue),
        findCandidate fd names = some v →
          ∃ i, ∃ h : i < names.length,
            getField fd (names.get ⟨i, h⟩) = v ∧ v.truthy = true ∧
              ∀ j (hj : j < i),
                (getField fd (names.get ⟨j, Nat.lt_trans hj h⟩)).truthy = false) := by
  refine ⟨rfl, ?_, ?_⟩
  · intro fd v h
    simp [extractFullContent, h]
  · intro fd names v h
    exact findCandidate_first h

/-- Witness for C2: with a falsy `content` field and a truthy `body` field,
extraction is exactly the normalization of the `body` value. -/
theorem extract_first_candidate_wins_witness :
    extractFullContent (some [("content", .str []), ("body", .str (lit "Hello"))]) =
      processRichTextContent (.str (lit "Hello")) :=
  extract_first_candidate_wins.2.1 [("content", .str []), ("body", .str (lit "Hello"))]
    (.str (lit "Hello")) rfl

/-- C3: a non-empty extracted content string containing both angle brackets
is returned unchanged; otherwise double newlines become paragraph breaks and
the remaining single newlines become line breaks — in particular the record
with `body` set to the two-line example yields the claimed output. -/
theorem processRichText_normalization :
    (∀ s : JStr, s ≠ [] →
        processRichTextContent (.str s) =
          .ok (if jsIncludes s (lit "<") && jsIncludes s (lit ">") then s
               else replaceChar '\n' (lit "<br>") (replaceTwoNewlines (lit "</p><p>") s))) ∧
    extractFullContent (some [("body", .str (lit "Line one\n\nLine two\nLine three"))]) =
      .ok (lit "Line one</p><p>Line two<br>Line three") := by
  refine ⟨?_, rfl⟩
  intro s hs
  have htr : (JsValue.truthy (.str s)) = true := by
    cases s with
    | nil => exact absurd rfl hs
    | cons a as => rfl
  simp [processRichTextContent, htr]

/-- Witness for C3: a plain-text string with one newline becomes a line
break. -/
theorem processRichText_normalization_witness :
    processRichTextContent (.str (lit "a\nb")) = .ok (lit "a<br>b") := by
  rw [processRichText_normalization.1 (lit "a\nb") (by decide)]
  rfl

/-- C4: when no candidate field matches, the fallback scans all field values
in order and concatenates exactly the string values longer than 100
characters that pass the likely-content test (an HTML paragraph, heading or
div marker, or more than 20 words with neither an at-sign nor `http`), each
followed by two newlines. -/
theorem extract_fallback_concat :
    (∀ fd : FieldData, findCandidate fd contentFields = none →
        extractFullContent (some fd) =
          if (fallbackConcat fd).isEmpty then .ok []
          else processRichTextContent (.str (fallbackConcat fd))) ∧
    (∀ fd : FieldData, fallbackConcat fd = joinStrs (fd.filterMap fallbackSelect)) ∧
    (∀ (k : String) (s : JStr),
        fallbackSelect (k, .str s) =
          if decide (100 < s.length) && isLikelyContent s then some (s ++ lit "\n\n")
          else none) ∧
    (∀ s : JStr,
        isLikelyContent s =
          (jsIncludes s (lit "<p>") || jsIncludes s (lit "<h") || jsIncludes s (lit "<div") ||
            (decide (20 < s.count ' ' + 1) && !jsIncludes s (lit "@") &&
              !jsIncludes s (lit "http")))) := by
  refine ⟨?_, ?_, fun _ _ => rfl, fun _ => rfl⟩
  · intro fd h
    simp [extractFullContent, h]
  · intro fd
    simpa using fallbackConcat_foldl fd []

/-- Witness for C4: the record whose only long field is the 150-character
26-word string selects exactly that field (its trailing double newline then
becomes a paragraph break during normalization). -/
theorem extract_fallback_concat_witness :
    extractFullContent (some loremRecord) = .ok (lorem150 ++ lit "</p><p>") := by
  rw [extract_fallback_concat.1 loremRecord rfl]
  rfl

/-- C5: escaping maps every falsy input to the empty string, and any truthy
input is coerced to a string with the five reserved characters replaced in
the fixed source order (ampersand first); on the sample input it yields the
claimed entity string, and it is a total function. -/
theorem escapeXml_spec :
    escapeXml .null = [] ∧ escapeXml .undefined = [] ∧ escapeXml (.str []) = [] ∧
    escapeXml (.num 0) = [] ∧ escapeXml (.bool false) = [] ∧
    (∀ v : JsValue, v.truthy = true →
        escapeXml v =
          replaceChar apos (lit "&#39;")
            (replaceChar '"' (lit "&quot;")
              (replaceChar '>' (lit "&gt;")
                (replaceChar '<' (lit "&lt;")
                  (replaceChar '&' (lit "&amp;") (jsToString v)))))) ∧
    escapeXml (.str (lit "<a>&\"" ++ [apos])) = lit "&lt;a&gt;&amp;&quot;&#39;" := by
  refine ⟨rfl, rfl, rfl, rfl, rfl, ?_, rfl⟩
  intro v hv
  simp [escapeXml, hv]

/-- Witness for C5: a truthy string goes through the five replacements. -/
theorem escapeXml_spec_witness :
    escapeXml (.str (lit "x")) =
      replaceChar apos (lit "&#39;")
        (replaceChar '"' (lit "&quot;")
          (replaceChar '>' (lit "&gt;")
            (replaceChar '<' (lit "&lt;")
              (replaceChar '&' (lit "&amp;") (jsToString (.str (lit "x"))))))) :=
  escapeXml_spec.2.2.2.2.2.1 (.str (lit "x")) rfl

/-- C6: in every successfully rendered item, the description element wraps
the escaped first-non-empty of the summary and excerpt fields in a CDATA
section (so reserved characters appear as entity references inside the
block), while the content-encoded element wraps the extracted content in a
CDATA section without any escaping. -/
theorem item_description_and_content_encoded :
    ∀ (cfg : Config) (now : JStr) (fmt : JStr → JStr) (post : Post) (content : JStr),
      extractFullContent post.fieldData = .ok content →
        ∃ item, renderItem cfg now fmt post = .ok item ∧
          (∃ p q, item = p ++ (lit "<description><![CDATA[" ++
              escapeXml (jsOr (optField post.fieldData "summary")
                (jsOr (optField post.fieldData "excerpt") (.str []))) ++
              lit "]]></description>") ++ q) ∧
          (∃ p q, item = p ++ (lit "<content:encoded><![CDATA[" ++ content ++
              lit "]]></content:encoded>") ++ q) := by
  intro cfg now fmt post content h
  unfold renderItem
  rw [h]
  refine ⟨_, rfl, ?_, ?_⟩
  · refine ⟨lit "\n    <item>" ++ lit "\n      <title>" ++ titleOf post ++
      lit "</title>\n      <link>" ++ postUrlOf cfg post ++
      lit "</link>\n      <guid isPermaLink=\"true\">" ++ postUrlOf cfg post ++
      lit "</guid>\n      <pubDate>" ++ postDateOf now fmt post ++
      lit "</pubDate>\n      " ++ authorTagOf post ++ lit "\n      ",
      lit "\n      " ++ lit "<content:encoded><![CDATA[" ++ content ++
        lit "]]></content:encoded>" ++ lit "\n    </item>", ?_⟩
    simp [descriptionOf, List.append_assoc]
  · refine ⟨lit "\n    <item>" ++ lit "\n      <title>" ++ titleOf post ++
      lit "</title>\n      <link>" ++ postUrlOf cfg post ++
      lit "</link>\n      <guid isPermaLink=\"true\">" ++ postUrlOf cfg post ++
      lit "</guid>\n      <pubDate>" ++ postDateOf now fmt post ++
      lit "</pubDate>\n      " ++ authorTagOf post ++ lit "\n      " ++
      lit "<description><![CDATA[" ++ descriptionOf post ++
      lit "]]></description>" ++ lit "\n      ",
      lit "\n    </item>", ?_⟩
    simp [List.append_assoc]

/-- Witness for C6: the sample post with an escapable summary and HTML
content renders with both CDATA elements. -/
theorem item_description_and_content_encoded_witness :
    ∃ item, renderItem defaultConfig (lit "NOW") (fun d => d) samplePost = .ok item ∧
      (∃ p q, item = p ++ (lit "<description><![CDATA[" ++
          escapeXml (jsOr (optField samplePost.fieldData "summary")
            (jsOr (optField samplePost.fieldData "excerpt") (.str []))) ++
          lit "]]></description>") ++ q) ∧
      (∃ p q, item = p ++ (lit "<content:encoded><![CDATA[" ++ lit "<p>Hi</p>" ++
          lit "]]></content:encoded>") ++ q) :=
  item_description_and_content_encoded defaultConfig (lit "NOW") (fun d => d) samplePost
    (lit "<p>Hi</p>") rfl

/-- A successful extraction makes `renderItem` succeed. -/
theorem renderItem_exists_ok {cfg : Config} {now : JStr} {fmt : JStr → JStr} {post : Post}
    (h : ∃ c, extractFullContent post.fieldData = .ok c) :
    ∃ item, renderItem cfg now fmt post = .ok item := by
  obtain ⟨c, hc⟩ := h
  unfold renderItem
  rw [hc]
  exact ⟨_, rfl⟩

/-- C7 (amended): rendering a feed item never throws provided every truthy
value sitting in a candidate content field is a string; without that
proviso the claim is false — see the counterexample with a numeric
`content` field, where content extraction throws a type error. -/
theorem renderItem_total_amended :
    ∀ (cfg : Config) (now : JStr) (fmt : JStr → JStr) (post : Post),
      (∀ name, name ∈ contentFields → (optField post.fieldData name).truthy = true →
          ∃ s, optField post.fieldData name = .str s) →
        ∃ item, renderItem cfg now fmt post = .ok item := by
  intro cfg now fmt post hstr
  refine renderItem_exists_ok ?_
  cases hfd : post.fieldData with
  | none => exact ⟨[], rfl⟩
  | some fd =>
    simp only [hfd, optField] at hstr
    cases hfc : findCandidate fd contentFields with
    | some v =>
      obtain ⟨i, hi, hget, htr, _⟩ := findCandidate_first hfc
      have hmem : contentFields.get ⟨i, hi⟩ ∈ contentFields := List.get_mem _ _ _
      obtain ⟨s, hset⟩ := hstr _ hmem (by rw [hget]; exact htr)
      have hv : v = .str s := hget.symm.trans hset
      obtain ⟨out, hout⟩ := processRichTextContent_str_ok s
      exact ⟨out, by simp [extractFullContent, hfc, hv, hout]⟩
    | none =>
      by_cases hfb : (fallbackConcat fd).isEmpty = true
      · exact ⟨[], by simp [extractFullContent, hfc, hfb]⟩
      · obtain ⟨out, hout⟩ := processRichTextContent_str_ok (fallbackConcat fd)
        exact ⟨out, by simp [extractFullContent, hfc, hfb, hout]⟩

/-- Witness for C7 (amended): a post with no field data renders. -/
theorem renderItem_total_amended_witness :
    ∃ item, renderItem defaultConfig (lit "NOW") (fun d => d)
      { id := lit "1", createdOn := none, fieldData := none } = .ok item :=
  renderItem_total_amended defaultConfig (lit "NOW") (fun d => d)
    { id := lit "1", createdOn := none, fieldData := none }
    (by intro name hmem htr; exact absurd htr (by simp [optField, JsValue.truthy]))

/-- Counterexample to C7 as stated: a record whose `content` field holds the
truthy non-string value 42 makes rendering throw (the JS `TypeError` from
calling `.includes` on a number), instead of degrading to an empty
string. -/
theorem renderItem_throws_on_numeric_content :
    renderItem defaultConfig (lit "NOW") (fun d => d)
      { id := lit "1", createdOn := none, fieldData := some [("content", .num 42)] } =
      .error () := rfl

/-- C8: the fetcher fails with an error carrying the upstream status and
status text exactly when the response is not ok; an ok response whose JSON
body has no items field yields the empty list; and the thrown message is
the source template over status and status text. -/
theorem fetchWebflowPosts_spec :
    (∀ r : UpstreamResponse,
        fetchWebflowPosts (.response r) = .error (.apiError r.status r.statusText) ↔
          r.ok = false) ∧
    (∀ r : UpstreamResponse, r.ok = true → r.body = .ok none →
        fetchWebflowPosts (.response r) = .ok []) ∧
    (∀ (status : Nat) (statusText : JStr),
        FetchError.message (.apiError status statusText) =
          lit "Webflow API error: " ++ (toString status).data ++ lit " " ++ statusText) := by
  refine ⟨?_, ?_, fun _ _ => rfl⟩
  · intro r
    constructor
    · intro h
      cases hok : r.ok
      · rfl
      · cases hb : r.body with
        | error m => simp [fetchWebflowPosts, hok, hb] at h
        | ok items? => simp [fetchWebflowPosts, hok, hb] at h
    · intro h
      simp [fetchWebflowPosts, h]
  · intro r h hb
    simp [fetchWebflowPosts, h, hb]

/-- Witness for C8: the 403 response fails with the 403-carrying error. -/
theorem fetchWebflowPosts_spec_witness :
    fetchWebflowPosts (.response forbidden403) =
      .error (.apiError 403 (lit "Forbidden")) :=
  (fetchWebflowPosts_spec.1 forbidden403).mpr rfl

/-- C9: the document is the channel envelope around the concatenation of
one rendered item fragment per input post, in input order, with no sorting
and no deduplication; each fragment is a single item element; and the empty
input yields the envelope alone, which contains no item element. -/
theorem generateRSS_items_in_order :
    (∀ (cfg : Config) (now : JStr) (fmt : JStr → JStr) (posts : List Post)
        (rendered : List JStr),
        renderAll cfg now fmt posts = .ok rendered →
          generateRSS cfg now fmt posts =
              .ok (rssHeader cfg now ++ joinStrs rendered ++ rssFooter) ∧
            rendered.length = posts.length ∧
            ∀ i (h : i < posts.length) (h2 : i < rendered.length),
              renderItem cfg now fmt (posts.get ⟨i, h⟩) = .ok (rendered.get ⟨i, h2⟩)) ∧
    (∀ (cfg : Config) (now : JStr) (fmt : JStr → JStr) (post : Post) (item : JStr),
        renderItem cfg now fmt post = .ok item →
          ∃ mid, item = lit "\n    <item>" ++ mid ++ lit "\n    </item>") ∧
    (∀ (cfg : Config) (now : JStr) (fmt : JStr → JStr),
        generateRSS cfg now fmt [] = .ok (rssHeader cfg now ++ rssFooter)) ∧
    (jsIncludes (rssHeader defaultConfig (lit "Mon, 06 Oct 2025 00:00:00 GMT") ++ rssFooter)
        (lit "<item") = false) := by
  refine ⟨?_, ?_, ?_, by decide⟩
  · intro cfg now fmt posts rendered h
    obtain ⟨hlen, hidx⟩ := renderAll_spec h
    exact ⟨by simp [generateRSS, h], hlen, hidx⟩
  · intro cfg now fmt post item h
    cases hx : extractFullContent post.fieldData with
    | error e =>
      unfold renderItem at h
      rw [hx] at h
      exact absurd h (by simp)
    | ok content =>
      unfold renderItem at h
      rw [hx] at h
      injection h with h'
      refine ⟨lit "\n      <title>" ++ titleOf post ++ lit "</title>\n      <link>" ++
        postUrlOf cfg post ++ lit "</link>\n      <guid isPermaLink=\"true\">" ++
        postUrlOf cfg post ++ lit "</guid>\n      <pubDate>" ++ postDateOf now fmt post ++
        lit "</pubDate>\n      " ++ authorTagOf post ++ lit "\n      " ++
        lit "<description><![CDATA[" ++ descriptionOf post ++ lit "]]></description>" ++
        lit "\n      " ++ lit "<content:encoded><![CDATA[" ++ content ++
        lit "]]></content:encoded>", ?_⟩
      rw [← h']
      simp [List.append_assoc]
  · intro cfg now fmt
    simp [generateRSS, renderAll, joinStrs]

/-- Witness for C9: the empty post list renders to the bare envelope. -/
theorem generateRSS_items_in_order_witness :
    generateRSS defaultConfig (lit "NOW") (fun d => d) [] =
      .ok (rssHeader defaultConfig (lit "NOW") ++ joinStrs [] ++ rssFooter) :=
  (generateRSS_items_in_order.1 defaultConfig (lit "NOW") (fun d => d) [] [] rfl).1

/-- C10: for every input value, the escaped output contains no raw
less-than, greater-than, double-quote or apostrophe character (the
replacement entities reintroduce none of them), so escaped text cannot open
or close a tag or break out of a quoted attribute. -/
theorem escapeXml_no_raw_reserved :
    ∀ (v : JsValue) (c : Char), c ∈ escapeXml v →
      c ≠ '<' ∧ c ≠ '>' ∧ c ≠ '"' ∧ c ≠ apos := by
  intro v c hc
  by_cases htr : v.truthy = true
  · have hc2 : c ∈ replaceChar apos (lit "&#39;")
        (replaceChar '"' (lit "&quot;")
          (replaceChar '>' (lit "&gt;")
            (replaceChar '<' (lit "&lt;")
              (replaceChar '&' (lit "&amp;") (jsToString v))))) := by
      simpa [escapeXml, htr] using hc
    rcases mem_replaceChar hc2 with h5 | ⟨hc3, hne_apos⟩
    · exact (show ∀ x ∈ lit "&#39;", x ≠ '<' ∧ x ≠ '>' ∧ x ≠ '"' ∧ x ≠ apos by decide) c h5
    · rcases mem_replaceChar hc3 with h4 | ⟨hc4, hne_quot⟩
      · exact (show ∀ x ∈ lit "&quot;", x ≠ '<' ∧ x ≠ '>' ∧ x ≠ '"' ∧ x ≠ apos by decide) c h4
      · rcases mem_replaceChar hc4 with h3 | ⟨hc5, hne_gt⟩
        · exact (show ∀ x ∈ lit "&gt;", x ≠ '<' ∧ x ≠ '>' ∧ x ≠ '"' ∧ x ≠ apos by decide) c h3
        · rcases mem_replaceChar hc5 with h2 | ⟨hc6, hne_lt⟩
          · exact (show ∀ x ∈ lit "&lt;", x ≠ '<' ∧ x ≠ '>' ∧ x ≠ '"' ∧ x ≠ apos by decide) c h2
          · exact ⟨hne_lt, hne_gt, hne_quot, hne_apos⟩
  · have hfa : v.truthy = false := by
      revert htr; cases v.truthy <;> simp
    simp [escapeXml, hfa] at hc

/-- Witness for C10: the ampersand of the entity produced for a less-than
character is not itself reserved. -/
theorem escapeXml_no_raw_reserved_witness :
    '&' ≠ '<' ∧ '&' ≠ '>' ∧ '&' ≠ '"' ∧ '&' ≠ apos :=
  escapeXml_no_raw_reserved (.str (lit "<")) '&' (by decide)
